import Mathlib

/-
Shallow embedding of mpcpy/optimization.py (the optimization
formulation / orchestration / solve pipeline) and proofs about it.

Conventions:
- Python dictionaries are modelled as association lists over String keys,
  read through List.lookup; dictionary assignment is modelled by dset,
  which is faithful up to lookup.
- Machine floats that the claims only compare for equality are modelled
  as Int (static constraint values) or as symbolic CVal data; the
  derivative-free cost function, whose arithmetic matters, is modelled
  over the rationals.
- Raised Python exceptions are modelled with Except String; a method
  that mutates attributes is modelled as a function returning the
  raised error (if any) together with the state after the call, so that
  a raise occurring before an assignment leaves the state unchanged,
  exactly as in the source.
-/

/-- Values stored in exodata constraint dictionaries and timeseries slots:
either a static value (the result of get_base_data on a Static variable)
or a timeseries (time stamp, value pairs). -/
inductive CVal where
  | lit : Int → CVal
  | series : List (Int × Int) → CVal
deriving DecidableEq, Repr

/-- The slice of the external mpcpy Model collaborator that the
optimization core reads and writes: control_data, the Simulated slot of
measurements, parameter_data as (name, (Free, Value)) entries, and the
elapsed seconds of the current time window. -/
structure Model where
  control_data : List (String × CVal)
  measurements : List (String × Option CVal)
  parameter_data : List (String × Bool × Int)
  elapsed_seconds : Int
deriving DecidableEq, Repr

/-- Result object of the initial-guess FMU simulation (self.res_init).
It records which model state was simulated and how many sample points
the simulation produced. -/
structure SimRes where
  fromModel : Model
  sampleCount : Nat
deriving DecidableEq, Repr

/-- The pyjmi ExternalData structure built by _create_external_data:
quadratic-penalty channel names and eliminated input names. -/
structure ExtData where
  quad_pen : List String
  eliminated : List String
deriving DecidableEq, Repr

/-- Result object returned by opt_problem.optimize: trajectories keyed by
variable name plus initial point values (res_opt.initial). -/
structure SolveResult where
  vals : List (String × CVal)
  inits : List (String × Int)
deriving DecidableEq, Repr

/-- Values stored in the opt_options dictionary of a package object. -/
inductive OVal where
  | nat : Nat → OVal
  | int : Int → OVal
  | str : String → OVal
  | simres : SimRes → OVal
  | ext : ExtData → OVal
deriving DecidableEq, Repr

/-- Dictionary assignment d[k] = v on an association list, faithful to a
Python dict up to lookup (lookup of k gives v, lookup of other keys is
unchanged). -/
def dset {α : Type} (l : List (String × α)) (k : String) (v : α) :
    List (String × α) :=
  (k, v) :: l.filter (fun kv => kv.1 ≠ k)

/-- Mutable attributes of a JModelica (or Python) package object that the
solve pipeline uses: the option store, the ncp entry of the simulation
options, the stored initial simulation result, the last solve result,
other_inputs, and the measurement variable list for parameter
estimation. -/
structure JMState where
  opt_options : List (String × OVal)
  ncp : Nat
  res_init : Option SimRes
  res_opt : Option SolveResult
  other_inputs : List (String × CVal)
  measurement_variable_list : List String
deriving DecidableEq, Repr

/-- The four automatically managed option keys checked by
_set_optimization_options. -/
def autoKeys : List String := ["external_data", "init_traj", "nominal_traj", "n_e"]

/-- The check loop of _set_optimization_options: iterate over the keys of
the supplied dictionary and raise on any auto-managed key whose supplied
value differs from the stored one (indexing a missing stored key also
raises, as in Python). -/
def checkAutoKeys (old : List (String × OVal)) :
    List (String × OVal) → Except String Unit
  | [] => .ok ()
  | (k, v) :: rest =>
    if k ∈ autoKeys then
      match old.lookup k with
      | none => .error ("KeyError: " ++ k)
      | some w =>
        if v = w then checkAutoKeys old rest
        else .error ("Key " ++ k ++ " is set automatically upon solve.")
    else checkAutoKeys old rest

/-- JModelica._set_optimization_options and Python._set_optimization_options
(their bodies are identical in the source): when init is false, first run
the auto-key check over the supplied dictionary, raising before any
mutation; only then store the supplied dictionary as the new option map. -/
def set_optimization_options (s : JMState)
    (opt_options : List (String × OVal)) (init : Bool) :
    Except String Unit × JMState :=
  if init then (.ok (), { s with opt_options := opt_options })
  else
    match checkAutoKeys s.opt_options opt_options with
    | .error e => (.error e, s)
    | .ok _ => (.ok (), { s with opt_options := opt_options })

theorem checkAutoKeys_ok_iff (old : List (String × OVal)) :
    ∀ new : List (String × OVal),
      checkAutoKeys old new = .ok () ↔
        ∀ kv ∈ new, kv.1 ∈ autoKeys → old.lookup kv.1 = some kv.2 := by
  intro new
  induction new with
  | nil => simp [checkAutoKeys]
  | cons kv rest ih =>
    obtain ⟨k, v⟩ := kv
    by_cases hk : k ∈ autoKeys
    · cases hw : old.lookup k with
      | none =>
        simp only [checkAutoKeys, if_pos hk, hw]
        constructor
        · intro h; cases h
        · intro h
          have := h (k, v) (by simp) hk
          rw [hw] at this; cases this
      | some w =>
        by_cases hvw : v = w
        · simp only [checkAutoKeys, if_pos hk, hw, if_pos hvw]
          rw [ih]
          constructor
          · intro h kv hmem hauto
            rcases List.mem_cons.mp hmem with h1 | h1
            · subst h1; rw [hvw]; exact hw
            · exact h kv h1 hauto
          · intro h kv hmem hauto
            exact h kv (List.mem_cons_of_mem _ hmem) hauto
        · simp only [checkAutoKeys, if_pos hk, hw, if_neg hvw]
          constructor
          · intro h; cases h
          · intro h
            have := h (k, v) (by simp) hk
            rw [hw] at this
            exact absurd (Option.some.inj this).symm hvw
    · simp only [checkAutoKeys, if_neg hk]
      rw [ih]
      constructor
      · intro h kv hmem hauto
        rcases List.mem_cons.mp hmem with h1 | h1
        · subst h1; exact absurd hauto hk
        · exact h kv h1 hauto
      · intro h kv hmem hauto
        exact h kv (List.mem_cons_of_mem _ hmem) hauto

theorem checkAutoKeys_error (old : List (String × OVal))
    (new : List (String × OVal))
    (h : ∃ kv ∈ new, kv.1 ∈ autoKeys ∧ old.lookup kv.1 ≠ some kv.2) :
    ∃ e, checkAutoKeys old new = .error e := by
  cases hc : checkAutoKeys old new with
  | error e => exact ⟨e, rfl⟩
  | ok u =>
    cases u
    rw [checkAutoKeys_ok_iff] at hc
    obtain ⟨kv, hmem, hauto, hne⟩ := h
    exact absurd (hc kv hmem hauto) hne

/-- Claim C1: a call to set_optimization_options (after initialization)
that maps an auto-managed key to a value differing from the stored
(backend-managed) one raises and leaves the stored option map unchanged;
a call in which every supplied auto-managed key matches the stored value
succeeds and installs the supplied dictionary as the new option store. -/
theorem C1_set_optimization_options_auto_keys (s : JMState)
    (new : List (String × OVal)) :
    ((∀ kv ∈ new, kv.1 ∈ autoKeys → s.opt_options.lookup kv.1 = some kv.2) →
      set_optimization_options s new false =
        (.ok (), { s with opt_options := new })) ∧
    ((∃ kv ∈ new, kv.1 ∈ autoKeys ∧ s.opt_options.lookup kv.1 ≠ some kv.2) →
      ∃ e, set_optimization_options s new false = (.error e, s)) := by
  constructor
  · intro h
    have hok : checkAutoKeys s.opt_options new = .ok () :=
      (checkAutoKeys_ok_iff s.opt_options new).mpr h
    simp [set_optimization_options, hok]
  · intro h
    obtain ⟨e, he⟩ := checkAutoKeys_error s.opt_options new h
    exact ⟨e, by simp [set_optimization_options, he]⟩

/-- Example package state used to instantiate hypotheses of proved
theorems on concrete inputs. -/
def sExample : JMState :=
  { opt_options := [("n_e", .nat 5), ("IPOPT_max_iter", .nat 100)]
    ncp := 5
    res_init := none
    res_opt := none
    other_inputs := []
    measurement_variable_list := [] }

/-- Witness for C1: on a concrete state storing n_e = 5, supplying
n_e = 5 together with a changed user option succeeds and replaces the
store, while supplying n_e = 2 raises and leaves the state unchanged. -/
theorem C1_set_optimization_options_auto_keys_witness :
    (set_optimization_options sExample
        [("n_e", .nat 5), ("IPOPT_max_iter", .nat 2)] false =
      (.ok (), { sExample with
        opt_options := [("n_e", .nat 5), ("IPOPT_max_iter", .nat 2)] })) ∧
    (∃ e, set_optimization_options sExample [("n_e", .nat 2)] false =
      (.error e, sExample)) :=
  ⟨(C1_set_optimization_options_auto_keys sExample _).1 (by decide),
   (C1_set_optimization_options_auto_keys sExample _).2
     ⟨("n_e", OVal.nat 2), by decide, by decide, by decide⟩⟩

/-- Problem type tags: EnergyMin, EnergyCostMin, _ParameterEstimate. -/
inductive ProblemKind where
  | energyMin
  | energyCostMin
  | parameterEstimate
deriving DecidableEq, Repr

/-- Package type tags: JModelica (collocation) and Python (derivative
free). -/
inductive PackageKind where
  | jmodelica
  | python
deriving DecidableEq, Repr

/-- Attributes of a freshly allocated package object before its
constructor body runs. -/
def blankJMState : JMState :=
  { opt_options := []
    ncp := 0
    res_init := none
    res_opt := none
    other_inputs := []
    measurement_variable_list := [] }

/-- Constructor body shared by JModelica.__init__ and Python.__init__:
set up the problem for the current problem type (mop writing and
transcription, external), then store the default option set of the
transcribed problem through _set_optimization_options with init = true.
The default option set returned by the external
opt_problem.optimize_options() is a parameter (defaults), a function of
the problem kind and package kind the backend was built against. -/
def packageInit (defaults : ProblemKind → PackageKind → List (String × OVal))
    (pt : ProblemKind) (pk : PackageKind) : JMState :=
  (set_optimization_options blankJMState (defaults pt pk) true).2

/-- The orchestrator object (class Optimization): Model reference,
objective variable name, constraint data, current problem type tag,
current package type tag, and the state of the owned package object. -/
structure Optimization where
  Model : Model
  objective_variable : String
  constraint_data : List (String × List (String × CVal))
  problem_kind : ProblemKind
  package_kind : PackageKind
  pkg : JMState
deriving DecidableEq, Repr

/-- Optimization.set_problem_type: replace the problem type, then rebuild
a package object of the same package kind (type(self._package_type))
against the new problem type. -/
def Optimization.set_problem_type
    (defaults : ProblemKind → PackageKind → List (String × OVal))
    (o : Optimization) (pt : ProblemKind) : Optimization :=
  { o with
    problem_kind := pt
    pkg := packageInit defaults pt o.package_kind }

/-- Optimization.set_package_type: replace the package object only,
rebuilding it against the unchanged problem type. -/
def Optimization.set_package_type
    (defaults : ProblemKind → PackageKind → List (String × OVal))
    (o : Optimization) (pk : PackageKind) : Optimization :=
  { o with
    package_kind := pk
    pkg := packageInit defaults o.problem_kind pk }

/-- Optimization.get_optimization_options: pass-through to the package
option store. -/
def Optimization.get_optimization_options (o : Optimization) :
    List (String × OVal) :=
  o.pkg.opt_options

/-- Claim C2: set_problem_type rebuilds a backend of the same package
kind against the new problem kind, and a subsequent
get_optimization_options returns exactly the fresh default option set of
that backend; in particular this holds after any prior user override was
stored through set_optimization_options, so no prior override survives. -/
theorem C2_set_problem_type_resets_options
    (defaults : ProblemKind → PackageKind → List (String × OVal))
    (o : Optimization) (new : List (String × OVal)) (pt : ProblemKind) :
    ((o.set_problem_type defaults pt).get_optimization_options
        = defaults pt o.package_kind) ∧
    ((o.set_problem_type defaults pt).package_kind = o.package_kind) ∧
    (({ o with pkg := (set_optimization_options o.pkg new false).2
      }.set_problem_type defaults pt).get_optimization_options
        = defaults pt o.package_kind) := by
  refine ⟨rfl, rfl, ?_⟩
  rfl

/-- Claim C10: set_problem_type and set_package_type leave the Model
reference, the objective variable and the constraint data of the
orchestrator unchanged; only the problem or package tags and the package
object (with its option store) are replaced. -/
theorem C10_reconfigure_frame
    (defaults : ProblemKind → PackageKind → List (String × OVal))
    (o : Optimization) (pt : ProblemKind) (pk : PackageKind) :
    ((o.set_problem_type defaults pt).Model = o.Model) ∧
    ((o.set_problem_type defaults pt).objective_variable
        = o.objective_variable) ∧
    ((o.set_problem_type defaults pt).constraint_data = o.constraint_data) ∧
    ((o.set_package_type defaults pk).Model = o.Model) ∧
    ((o.set_package_type defaults pk).objective_variable
        = o.objective_variable) ∧
    ((o.set_package_type defaults pk).constraint_data = o.constraint_data) :=
  ⟨rfl, rfl, rfl, rfl, rfl, rfl⟩

/-- Constraint clauses written into the optimization stage of the mop
file by _write_control_mop: path inequalities against a bound input,
boundary equalities against a literal, and the cyclic equality. -/
inductive Clause where
  | geC : String → String → Clause
  | dgeC : String → String → Clause
  | leC : String → String → Clause
  | dleC : String → String → Clause
  | initC : String → CVal → Clause
  | finalC : String → CVal → Clause
  | cycC : String → Clause
deriving DecidableEq, Repr

/-- Replacement of every dot by an underscore, modelling the Python call
key.replace(".", "_") character by character. -/
def replaceDot (s : String) : String :=
  String.mk (s.data.map (fun c => if c = '.' then '_' else c))

/-- Name of the input variable instantiated for a constraint field:
key.replace(".", "_") + "_" + field. -/
def keyNew (key field : String) : String :=
  replaceDot key ++ "_" ++ field

/-- Compiled optimization stage of the mop file: the optimization-stage
input names, the other_inputs entries added for constraint bounds, and
the constraint clauses, in writing order. -/
structure MopStage where
  opt_input_names : List String
  other_inputs : List (String × CVal)
  clauses : List Clause
deriving DecidableEq, Repr

/-- Constraint data for one variable: list of (field, value) pairs. -/
abbrev FieldList := List (String × CVal)

/-- Constraint data dictionary: variable name to field dictionary. -/
abbrev ConstraintData := List (String × FieldList)

/-- Clause emitted by the if/elif chain of _write_control_mop for one
declared (variable, field) pair; a field matching none of the seven
branches emits nothing. -/
def clauseOf (key field : String) (v : CVal) : List Clause :=
  if field = "GTE" then [.geC key (keyNew key field)]
  else if field = "dGTE" then [.dgeC key (keyNew key field)]
  else if field = "LTE" then [.leC key (keyNew key field)]
  else if field = "dLTE" then [.dleC key (keyNew key field)]
  else if field = "Initial" then [.initC key v]
  else if field = "Final" then [.finalC key v]
  else if field = "Cyclic" then [.cycC key]
  else []

/-- Input declaration emitted for one declared (variable, field) pair:
every field other than Cyclic, Final and Initial is instantiated as an
additional input carrying its constraint data. -/
def inputOf (key field : String) (v : CVal) : List (String × CVal) :=
  if field ≠ "Cyclic" ∧ field ≠ "Final" ∧ field ≠ "Initial" then
    [(keyNew key field, v)]
  else []

/-- JModelica._write_control_mop, restricted to the constraint handling it
performs: for every variable of the constraint data and every declared
field, instantiate the bound inputs and write the constraint clauses, in
declaration order. init_names are the input names inherited from the
initialization stage minus the control variables (computed by the
caller); they are carried through unchanged. -/
def write_control_mop (init_names : List String) (cd : ConstraintData) :
    MopStage :=
  { opt_input_names :=
      init_names ++
        cd.flatMap (fun kf =>
          kf.2.flatMap (fun fv => (inputOf kf.1 fv.1 fv.2).map Prod.fst))
    other_inputs :=
      cd.flatMap (fun kf => kf.2.flatMap (fun fv => inputOf kf.1 fv.1 fv.2))
    clauses :=
      cd.flatMap (fun kf => kf.2.flatMap (fun fv => clauseOf kf.1 fv.1 fv.2)) }

/-- The seven declared constraint kinds, in source spelling. -/
def sevenKinds : List String :=
  ["GTE", "LTE", "dGTE", "dLTE", "Initial", "Final", "Cyclic"]

/-- Stated meaning of a declared (variable, kind) pair, written from the
words of the spec: LowerBound and UpperBound (GTE, LTE) compile to value
at least / at most a bound exposed as an additional input;
LowerBoundOnDerivative and UpperBoundOnDerivative (dGTE, dLTE) compile to
the same inequalities on the time derivative; InitialValue and FinalValue
(Initial, Final) compile to equality of the value at horizon start or end
with the literal; Cyclic compiles to equality of the value at horizon
start and end. -/
def specClause (key field : String) (v : CVal) : Clause :=
  if field = "GTE" then .geC key (keyNew key field)
  else if field = "LTE" then .leC key (keyNew key field)
  else if field = "dGTE" then .dgeC key (keyNew key field)
  else if field = "dLTE" then .dleC key (keyNew key field)
  else if field = "Initial" then .initC key v
  else if field = "Final" then .finalC key v
  else .cycC key

theorem clauseOf_known (key field : String) (v : CVal)
    (h : field ∈ sevenKinds) : clauseOf key field v = [specClause key field v] := by
  simp only [sevenKinds, List.mem_cons, List.not_mem_nil, or_false] at h
  rcases h with h | h | h | h | h | h | h <;> subst h <;> rfl

theorem flatMap_singleton_eq_map {α β : Type} (f : α → β) :
    ∀ l : List α, (l.flatMap fun x => [f x]) = l.map f
  | [] => rfl
  | a :: t => by
    rw [List.flatMap_cons, List.map_cons, flatMap_singleton_eq_map f t]
    rfl

/-- Claim C3: when every declared kind is one of the seven, the compiled
optimization stage contains exactly one clause per declared
(variable, kind) pair, in declaration order, each with the stated
meaning, and every bound kind (GTE, LTE, dGTE, dLTE) has its bound
exposed as an additional input of the stage. -/
theorem C3_write_control_mop_clauses (init_names : List String)
    (cd : ConstraintData)
    (hknown : ∀ kf ∈ cd, ∀ fv ∈ kf.2, fv.1 ∈ sevenKinds) :
    ((write_control_mop init_names cd).clauses =
      cd.flatMap (fun kf => kf.2.map (fun fv => specClause kf.1 fv.1 fv.2))) ∧
    (∀ kf ∈ cd, ∀ fv ∈ kf.2, fv.1 ∈ ["GTE", "LTE", "dGTE", "dLTE"] →
      ((keyNew kf.1 fv.1, fv.2) ∈ (write_control_mop init_names cd).other_inputs ∧
        keyNew kf.1 fv.1 ∈ (write_control_mop init_names cd).opt_input_names)) := by
  constructor
  · show cd.flatMap _ = cd.flatMap _
    apply List.flatMap_congr
    intro kf hkf
    have : ∀ fv ∈ kf.2, clauseOf kf.1 fv.1 fv.2 = [specClause kf.1 fv.1 fv.2] := by
      intro fv hfv
      exact clauseOf_known kf.1 fv.1 fv.2 (hknown kf hkf fv hfv)
    calc kf.2.flatMap (fun fv => clauseOf kf.1 fv.1 fv.2)
        = kf.2.flatMap (fun fv => [specClause kf.1 fv.1 fv.2]) :=
          List.flatMap_congr this
      _ = kf.2.map (fun fv => specClause kf.1 fv.1 fv.2) :=
          flatMap_singleton_eq_map _ kf.2
  · intro kf hkf fv hfv hbound
    have hinput : inputOf kf.1 fv.1 fv.2 = [(keyNew kf.1 fv.1, fv.2)] := by
      simp only [List.mem_cons, List.not_mem_nil, or_false] at hbound
      rcases hbound with h | h | h | h <;> rw [inputOf, h] <;> rfl
    have hmem : (keyNew kf.1 fv.1, fv.2) ∈
        cd.flatMap (fun kf => kf.2.flatMap (fun fv => inputOf kf.1 fv.1 fv.2)) := by
      rw [List.mem_flatMap]
      refine ⟨kf, hkf, ?_⟩
      rw [List.mem_flatMap]
      exact ⟨fv, hfv, by rw [hinput]; simp⟩
    refine ⟨hmem, ?_⟩
    show _ ∈ init_names ++ _
    rw [List.mem_append]
    right
    rw [List.mem_flatMap]
    refine ⟨kf, hkf, ?_⟩
    rw [List.mem_flatMap]
    exact ⟨fv, hfv, by rw [hinput]; simp⟩

/-- Constraint data instance used to discharge the hypotheses of proved
theorems on a concrete input: a lower and an upper bound on T_db and a
cyclic condition on another variable. -/
def cdExample : ConstraintData :=
  [("T_db", [("GTE", .lit 283), ("LTE", .lit 303)]),
   ("heatCapacitor.T", [("Cyclic", .lit 0)])]

/-- Witness for C3: on the concrete constraint data, the compiled stage
is exactly one clause per declared pair with the stated meaning, and the
two bound inputs are present. -/
theorem C3_write_control_mop_clauses_witness :
    ((write_control_mop ["q_flow"] cdExample).clauses =
      [.geC "T_db" "T_db_GTE", .leC "T_db" "T_db_LTE",
        .cycC "heatCapacitor.T"]) ∧
    (keyNew "T_db" "GTE", CVal.lit 283) ∈
      (write_control_mop ["q_flow"] cdExample).other_inputs := by
  have h := C3_write_control_mop_clauses ["q_flow"] cdExample (by decide)
  constructor
  · rw [h.1]; decide
  · exact (h.2 ("T_db", [("GTE", .lit 283), ("LTE", .lit 303)]) (by decide)
      ("GTE", .lit 283) (by decide) (by decide)).1

/-- Kind tag of a compiled clause, in source spelling. -/
def clauseKind : Clause → String
  | .geC _ _ => "GTE"
  | .dgeC _ _ => "dGTE"
  | .leC _ _ => "LTE"
  | .dleC _ _ => "dLTE"
  | .initC _ _ => "Initial"
  | .finalC _ _ => "Final"
  | .cycC _ => "Cyclic"

theorem clauseOf_kind (key f : String) (v : CVal) (c : Clause)
    (h : c ∈ clauseOf key f v) : clauseKind c ∈ sevenKinds := by
  unfold clauseOf at h
  split_ifs at h <;>
    simp only [List.mem_singleton, List.not_mem_nil] at h <;>
    subst h <;> simp [clauseKind, sevenKinds]

/-- Constraint data with an unknown kind: the field Foo is none of the
seven declared kinds. -/
def cdUnknown : ConstraintData := [("T", [("Foo", .lit 5)])]

/-- Counterexample to claim C8 as stated: _write_control_mop is a total
function with no error path, and on a constraint set whose only kind is
the unknown Foo it completes, emitting no clause at all for the unknown
kind (while still declaring an input for it), instead of rejecting the
set. -/
theorem C8_unknown_kind_not_rejected_counterexample :
    ("Foo" ∉ sevenKinds) ∧
    (write_control_mop [] cdUnknown).clauses = [] ∧
    (write_control_mop [] cdUnknown).other_inputs = [("T_Foo", .lit 5)] := by
  refine ⟨by decide, ?_, ?_⟩ <;> decide

/-- Claim C8 amended: every compiled clause has one of the seven declared
kinds, but a constraint set containing an unknown kind is not rejected:
the unknown kind is silently ignored, emitting no clause, while an input
is still declared for it. -/
theorem C8_compiled_clause_kinds (init_names : List String)
    (cd : ConstraintData) :
    (∀ c ∈ (write_control_mop init_names cd).clauses,
      clauseKind c ∈ sevenKinds) ∧
    (∀ kf ∈ cd, ∀ fv ∈ kf.2, fv.1 ∉ sevenKinds →
      (clauseOf kf.1 fv.1 fv.2 = [] ∧
        (keyNew kf.1 fv.1, fv.2) ∈
          (write_control_mop init_names cd).other_inputs)) := by
  constructor
  · intro c hc
    simp only [write_control_mop, List.mem_flatMap] at hc
    obtain ⟨kf, _, fv, _, hmem⟩ := hc
    exact clauseOf_kind kf.1 fv.1 fv.2 c hmem
  · intro kf hkf fv hfv hunk
    have hne : fv.1 ≠ "Cyclic" ∧ fv.1 ≠ "Final" ∧ fv.1 ≠ "Initial" := by
      refine ⟨?_, ?_, ?_⟩ <;> intro h <;> rw [h] at hunk <;>
        exact hunk (by decide)
    have hcl : clauseOf kf.1 fv.1 fv.2 = [] := by
      have h1 : fv.1 ≠ "GTE" := fun h => hunk (by rw [h]; decide)
      have h2 : fv.1 ≠ "dGTE" := fun h => hunk (by rw [h]; decide)
      have h3 : fv.1 ≠ "LTE" := fun h => hunk (by rw [h]; decide)
      have h4 : fv.1 ≠ "dLTE" := fun h => hunk (by rw [h]; decide)
      have h5 : fv.1 ≠ "Initial" := hne.2.2
      have h6 : fv.1 ≠ "Final" := hne.2.1
      have h7 : fv.1 ≠ "Cyclic" := hne.1
      simp [clauseOf, h1, h2, h3, h4, h5, h6, h7]
    refine ⟨hcl, ?_⟩
    show _ ∈ cd.flatMap _
    rw [List.mem_flatMap]
    refine ⟨kf, hkf, ?_⟩
    rw [List.mem_flatMap]
    refine ⟨fv, hfv, ?_⟩
    rw [inputOf, if_pos hne]
    simp

/-- Witness for the amended C8 on the concrete unknown-kind input: the
sole compiled stage has no clause, the unknown pair emits no clause, and
its input is declared. -/
theorem C8_compiled_clause_kinds_witness :
    clauseOf "T" "Foo" (.lit 5) = [] ∧
    (keyNew "T" "Foo", CVal.lit 5) ∈
      (write_control_mop [] cdUnknown).other_inputs := by
  have h := (C8_compiled_clause_kinds [] cdUnknown).2
    ("T", [("Foo", .lit 5)]) (by decide) ("Foo", .lit 5) (by decide) (by decide)
  exact h

theorem lookup_dset_self {α : Type} (l : List (String × α)) (k : String)
    (v : α) : (dset l k v).lookup k = some v := by
  simp [dset, List.lookup]

theorem lookup_filter_ne {α : Type} (k k2 : String) (h : k2 ≠ k)
    (l : List (String × α)) :
    (l.filter (fun kv => kv.1 ≠ k)).lookup k2 = l.lookup k2 := by
  induction l with
  | nil => rfl
  | cons ab t ih =>
    obtain ⟨a, b⟩ := ab
    by_cases hak : a = k
    · subst hak
      have h1 : List.filter (fun kv => kv.1 ≠ a) ((a, b) :: t)
          = List.filter (fun kv => kv.1 ≠ a) t :=
        List.filter_cons_of_neg (by simp)
      rw [h1, ih]
      have hk2a : (k2 == a) = false := beq_eq_false_iff_ne.mpr h
      simp [List.lookup, hk2a]
    · have h1 : List.filter (fun kv => kv.1 ≠ k) ((a, b) :: t)
          = (a, b) :: List.filter (fun kv => kv.1 ≠ k) t :=
        List.filter_cons_of_pos (by simp [hak])
      rw [h1]
      by_cases hk2a : k2 = a
      · subst hk2a
        simp [List.lookup]
      · have hba : (k2 == a) = false := beq_eq_false_iff_ne.mpr hk2a
        simp only [List.lookup, hba]
        exact ih

theorem lookup_dset_ne {α : Type} (l : List (String × α)) (k k2 : String)
    (v : α) (h : k2 ≠ k) : (dset l k v).lookup k2 = l.lookup k2 := by
  have hba : (k2 == k) = false := beq_eq_false_iff_ne.mpr h
  simp only [dset, List.lookup, hba]
  exact lookup_filter_ne k k2 h l

/-- Modelled from the spec: the forward FMU simulation run by
utility._FMU._simulate_fmu is code of this repository that is not under
src. Following section 4.5 of the spec it runs the unmodified dynamic
system forward over the current horizon and produces one seed
trajectory, whose number of sample points equals the ncp entry of the
simulation options; the Model itself is not mutated. -/
def simulate_fmu (m : Model) (ncp : Nat) : SimRes :=
  { fromModel := m, sampleCount := ncp }

/-- Externally visible steps of one package-level solve, in order of
occurrence: the initial-guess simulation, the two horizon-bound writes on
the transcribed problem, and the invocation of the external numerical
solve with the option dictionary it receives. -/
inductive Event where
  | seedSim : Event
  | setStart : Int → Event
  | setFinal : Int → Event
  | solveCalled : List (String × OVal) → Event
deriving DecidableEq, Repr

/-- Outcome of one package-level objective call: the raised error if any,
the package state after the call, the Model after the call, and the trace
of externally visible steps. -/
structure RunResult where
  err : Option String
  pkg : JMState
  model : Model
  trace : List Event
deriving DecidableEq, Repr

/-- The external numerical solver (opt_problem.optimize): consumes the
option dictionary, returns a result object or raises. -/
abbrev SolverFn := List (String × OVal) → Except String SolveResult

/-- JModelica._simulate_initial (also used by the Python package): runs
the initial-guess simulation for the current horizon and stores the
result in res_init. -/
def simulate_initial (s : JMState) (m : Model) : JMState :=
  { s with res_init := some (simulate_fmu m s.ncp) }

/-- JModelica._create_external_data: quadratic penalty channels from the
measurement variable list (prefixed mpc_model.), eliminated inputs from
the current input object, whose channel names come from other_inputs. -/
def create_external_data (s : JMState) : ExtData :=
  { quad_pen := s.measurement_variable_list.map (fun k => "mpc_model." ++ k)
    eliminated := s.other_inputs.map Prod.fst }

/-- Outcome of JModelica._solve: raised error if any, package state after
the call, the solve result on success, and the trace. -/
structure SolveOut where
  err : Option String
  pkg : JMState
  res : Option SolveResult
  trace : List Event
deriving DecidableEq, Repr

/-- Option dictionary after the four auto-managed writes performed by
_solve: external_data from the freshly built ExternalData, init_traj and
nominal_traj from the stored initial simulation result, n_e from the ncp
entry of the simulation options. -/
def autoOpts (s : JMState) (r : SimRes) : List (String × OVal) :=
  dset (dset (dset (dset s.opt_options
    "external_data" (.ext (create_external_data s)))
    "init_traj" (.simres r))
    "nominal_traj" (.simres r))
    "n_e" (.nat s.ncp)

/-- Tail of _solve: record the outcome of the external numerical solve,
storing res_opt only when the solve returned a result object. -/
def jm_solve_fin : Except String SolveResult → JMState → List Event →
    SolveOut
  | .error e, s1, tr => ⟨some e, s1, none, tr⟩
  | .ok res, s1, tr => ⟨none, { s1 with res_opt := some res }, some res, tr⟩

/-- JModelica._solve and Python._solve (their bodies are identical in the
source): build the input object and the ExternalData structure, overwrite
the four auto-managed option keys, push start_time = 0 and
final_time = elapsed seconds onto the transcribed problem, and invoke the
external numerical solve; reading res_init before any initial simulation
raises AttributeError. -/
def jm_solve (solver : SolverFn) (s : JMState) (m : Model) : SolveOut :=
  match s.res_init with
  | none => ⟨some "AttributeError: res_init", s, none, []⟩
  | some r =>
    jm_solve_fin (solver (autoOpts s r))
      { s with opt_options := autoOpts s r }
      [.setStart 0, .setFinal m.elapsed_seconds, .solveCalled (autoOpts s r)]

/-- Value of a solve-result trajectory at a given name
(res_opt[name]). -/
def resGet (r : SolveResult) (k : String) : CVal :=
  (r.vals.lookup k).getD (.lit 0)

/-- JModelica._get_control_results (also used by the Python package):
overwrite every control_data channel and every measurement Simulated slot
of the Model with the solved trajectory of the matching mpc_model
variable. -/
def get_control_results (r : SolveResult) (m : Model) : Model :=
  { m with
    control_data := m.control_data.map
      (fun kv => (kv.1, resGet r ("mpc_model." ++ kv.1)))
    measurements := m.measurements.map
      (fun kv => (kv.1, some (resGet r ("mpc_model." ++ kv.1)))) }

/-- JModelica._get_parameter_results: overwrite the Value of every free
parameter of the Model with the solved initial point value. -/
def get_parameter_results (r : SolveResult) (m : Model) : Model :=
  { m with
    parameter_data := m.parameter_data.map
      (fun kv =>
        if kv.2.1 then
          (kv.1, kv.2.1, (r.inits.lookup ("mpc_model." ++ kv.1)).getD kv.2.2)
        else kv) }

/-- JModelica._energymin and Python._energymin (identical bodies): run
the initial-guess simulation, solve, and update the control results of
the Model only on success. -/
def energymin_run (solver : SolverFn) (s : JMState) (m : Model) :
    RunResult :=
  match jm_solve solver (simulate_initial s m) m with
  | ⟨err, pkg, some res, tr⟩ =>
    ⟨err, pkg, get_control_results res m, .seedSim :: tr⟩
  | ⟨err, pkg, none, tr⟩ => ⟨err, pkg, m, .seedSim :: tr⟩

/-- JModelica._energycostmin: store the pi_e price series into
other_inputs (raising KeyError when the supplied price_data lacks the
key), then run the same simulate, solve, write-back sequence as
_energymin. -/
def energycostmin_run (solver : SolverFn) (s : JMState) (m : Model)
    (price_data : List (String × CVal)) : RunResult :=
  match price_data.lookup "pi_e" with
  | none => ⟨some "KeyError: pi_e", s, m, []⟩
  | some v =>
    energymin_run solver { s with other_inputs := dset s.other_inputs "pi_e" v } m

/-- JModelica._parameterestimate: store the measurement variable list,
run the initial-guess simulation, solve, and update the parameter results
of the Model only on success. -/
def parameterestimate_run (solver : SolverFn) (s : JMState) (m : Model)
    (mvl : List String) : RunResult :=
  match jm_solve solver
    (simulate_initial { s with measurement_variable_list := mvl } m) m with
  | ⟨err, pkg, some res, tr⟩ =>
    ⟨err, pkg, get_parameter_results res m, .seedSim :: tr⟩
  | ⟨err, pkg, none, tr⟩ => ⟨err, pkg, m, .seedSim :: tr⟩

/-- Python._energycostmin: the body is the single statement pass, so the
call raises nothing, touches nothing, and runs no solve. -/
def python_energycostmin (s : JMState) (m : Model)
    (_price_data : List (String × CVal)) : RunResult :=
  ⟨none, s, m, []⟩

/-- Python._parameterestimate: the body is the single statement pass, so
the call raises nothing, touches nothing, and runs no solve. -/
def python_parameterestimate (s : JMState) (m : Model)
    (_mvl : List String) : RunResult :=
  ⟨none, s, m, []⟩

/-- Keyword arguments of Optimization.optimize. -/
structure Kwargs where
  price_data : Option (List (String × CVal))
  measurement_variable_list : Option (List String)
deriving DecidableEq, Repr

/-- Dispatch performed by the problem-type _optimize methods:
EnergyMin calls the package _energymin; EnergyCostMin reads
kwargs[price_data] (raising KeyError when absent) and calls the package
_energycostmin; _ParameterEstimate reads
kwargs[measurement_variable_list] (raising KeyError when absent) and
calls the package _parameterestimate. The JModelica and Python
_energymin bodies are identical, so both dispatch to energymin_run. -/
def problem_optimize (pk : PackageKind) (pt : ProblemKind)
    (solver : SolverFn) (s : JMState) (m : Model) (kw : Kwargs) :
    RunResult :=
  match pt with
  | .energyMin => energymin_run solver s m
  | .energyCostMin =>
    match kw.price_data with
    | none => ⟨some "KeyError: price_data", s, m, []⟩
    | some pd =>
      match pk with
      | .jmodelica => energycostmin_run solver s m pd
      | .python => python_energycostmin s m pd
  | .parameterEstimate =>
    match kw.measurement_variable_list with
    | none => ⟨some "KeyError: measurement_variable_list", s, m, []⟩
    | some l =>
      match pk with
      | .jmodelica => parameterestimate_run solver s m l
      | .python => python_parameterestimate s m l

/-- True when the trace contains an invocation of the external numerical
solve. -/
def hasSolveEvent : List Event → Bool
  | [] => false
  | .solveCalled _ :: _ => true
  | _ :: t => hasSolveEvent t

/-- Claim C4 (code behaviour at the failing input): on the derivative-free
Python package, the energy-cost-minimization and parameter-estimation
solve paths are bodies consisting of pass: for every state, model and
argument they raise no error, run no solve, and leave package state and
Model untouched, instead of failing with a not-implemented error. -/
theorem C4_python_stubs_silent_noop (s : JMState) (m : Model)
    (pd : List (String × CVal)) (mvl : List String) :
    python_energycostmin s m pd = ⟨none, s, m, []⟩ ∧
    python_parameterestimate s m mvl = ⟨none, s, m, []⟩ ∧
    hasSolveEvent (python_energycostmin s m pd).trace = false ∧
    hasSolveEvent (python_parameterestimate s m mvl).trace = false :=
  ⟨rfl, rfl, rfl, rfl⟩

/-- Example solver that always returns an empty result object. -/
def solverOk : SolverFn := fun _ => .ok ⟨[], []⟩

/-- Example solver that always raises. -/
def solverFail : SolverFn := fun _ => .error "Solver raised"

/-- Example model instance used to instantiate hypotheses of proved
theorems on concrete inputs. -/
def mExample : Model :=
  { control_data := [("q_flow", .series [(0, 0), (3600, 0)])]
    measurements := [("T_db", none)]
    parameter_data := [("heatCapacitor.C", (true, 3000000))]
    elapsed_seconds := 3600 }

theorem jm_solve_fin_trace (x : Except String SolveResult) (s1 : JMState)
    (tr : List Event) : (jm_solve_fin x s1 tr).trace = tr := by
  cases x <;> rfl

theorem jm_solve_fin_some_err (x : Except String SolveResult)
    (s1 : JMState) (tr : List Event) (res : SolveResult)
    (h : (jm_solve_fin x s1 tr).res = some res) :
    (jm_solve_fin x s1 tr).err = none := by
  cases x with
  | error e => cases h
  | ok r => rfl

theorem jm_solve_trace (solver : SolverFn) (s : JMState) (m : Model)
    (r : SimRes) (h : s.res_init = some r) :
    (jm_solve solver s m).trace =
      [.setStart 0, .setFinal m.elapsed_seconds,
        .solveCalled (autoOpts s r)] := by
  unfold jm_solve
  rw [h]
  exact jm_solve_fin_trace _ _ _

theorem jm_solve_res_some_err (solver : SolverFn) (s : JMState) (m : Model)
    (res : SolveResult) (h : (jm_solve solver s m).res = some res) :
    (jm_solve solver s m).err = none := by
  unfold jm_solve at h ⊢
  cases hr : s.res_init with
  | none =>
    rw [hr] at h
    exact Option.noConfusion h
  | some r =>
    rw [hr] at h
    exact jm_solve_fin_some_err _ _ _ _ h

theorem autoOpts_lookup (s : JMState) (r : SimRes) :
    ((autoOpts s r).lookup "init_traj" = some (.simres r)) ∧
    ((autoOpts s r).lookup "nominal_traj" = some (.simres r)) ∧
    ((autoOpts s r).lookup "n_e" = some (.nat s.ncp)) ∧
    ((autoOpts s r).lookup "external_data" =
      some (.ext (create_external_data s))) := by
  unfold autoOpts
  refine ⟨?_, ?_, ?_, ?_⟩
  · rw [lookup_dset_ne _ _ _ _ (by decide),
      lookup_dset_ne _ _ _ _ (by decide), lookup_dset_self]
  · rw [lookup_dset_ne _ _ _ _ (by decide), lookup_dset_self]
  · rw [lookup_dset_self]
  · rw [lookup_dset_ne _ _ _ _ (by decide),
      lookup_dset_ne _ _ _ _ (by decide),
      lookup_dset_ne _ _ _ _ (by decide), lookup_dset_self]

theorem energymin_run_trace (solver : SolverFn) (s : JMState) (m : Model) :
    (energymin_run solver s m).trace =
      .seedSim :: (jm_solve solver (simulate_initial s m) m).trace := by
  unfold energymin_run
  generalize jm_solve solver (simulate_initial s m) m = so
  obtain ⟨err, pkg, res, tr⟩ := so
  cases res <;> rfl

theorem parameterestimate_run_trace (solver : SolverFn) (s : JMState)
    (m : Model) (mvl : List String) :
    (parameterestimate_run solver s m mvl).trace =
      .seedSim :: (jm_solve solver
        (simulate_initial { s with measurement_variable_list := mvl } m)
        m).trace := by
  unfold parameterestimate_run
  generalize jm_solve solver
    (simulate_initial { s with measurement_variable_list := mvl } m) m = so
  obtain ⟨err, pkg, res, tr⟩ := so
  cases res <;> rfl

theorem energymin_run_err_model (solver : SolverFn) (s : JMState)
    (m : Model) (h : (energymin_run solver s m).err.isSome = true) :
    (energymin_run solver s m).model = m := by
  have hP : ∀ res, (jm_solve solver (simulate_initial s m) m).res = some res →
      (jm_solve solver (simulate_initial s m) m).err = none :=
    fun res => jm_solve_res_some_err solver _ m res
  unfold energymin_run at h ⊢
  generalize jm_solve solver (simulate_initial s m) m = so at h hP
  obtain ⟨err, pkg, res, tr⟩ := so
  cases res with
  | none => rfl
  | some r =>
    have hnone : err = none := hP r rfl
    subst hnone
    simp at h

theorem parameterestimate_run_err_model (solver : SolverFn) (s : JMState)
    (m : Model) (mvl : List String)
    (h : (parameterestimate_run solver s m mvl).err.isSome = true) :
    (parameterestimate_run solver s m mvl).model = m := by
  have hP : ∀ res, (jm_solve solver
        (simulate_initial { s with measurement_variable_list := mvl } m)
        m).res = some res →
      (jm_solve solver
        (simulate_initial { s with measurement_variable_list := mvl } m)
        m).err = none :=
    fun res => jm_solve_res_some_err solver _ m res
  unfold parameterestimate_run at h ⊢
  generalize jm_solve solver
    (simulate_initial { s with measurement_variable_list := mvl } m) m
      = so at h hP
  obtain ⟨err, pkg, res, tr⟩ := so
  cases res with
  | none => rfl
  | some r =>
    have hnone : err = none := hP r rfl
    subst hnone
    simp at h

/-- Presence of the extra required signal of a problem kind in the
keyword arguments of the optimize call. -/
def requiredPresent : ProblemKind → Kwargs → Bool
  | .energyMin, _ => true
  | .energyCostMin, kw =>
    match kw.price_data with
    | some pd => (pd.lookup "pi_e").isSome
    | none => false
  | .parameterEstimate, kw => kw.measurement_variable_list.isSome

theorem energymin_run_pipeline (solver : SolverFn) (s : JMState)
    (m : Model) :
    ∃ opts,
      (energymin_run solver s m).trace =
        [.seedSim, .setStart 0, .setFinal m.elapsed_seconds,
          .solveCalled opts] ∧
      opts.lookup "init_traj" = some (.simres (simulate_fmu m s.ncp)) ∧
      opts.lookup "nominal_traj" = some (.simres (simulate_fmu m s.ncp)) ∧
      opts.lookup "n_e" = some (.nat (simulate_fmu m s.ncp).sampleCount) ∧
      (opts.lookup "external_data").isSome = true := by
  refine ⟨autoOpts (simulate_initial s m) (simulate_fmu m s.ncp),
    ?_, ?_, ?_, ?_, ?_⟩
  · rw [energymin_run_trace,
      jm_solve_trace solver (simulate_initial s m) m (simulate_fmu m s.ncp)
        rfl]
  · exact (autoOpts_lookup _ _).1
  · exact (autoOpts_lookup _ _).2.1
  · exact (autoOpts_lookup _ _).2.2.1
  · rw [(autoOpts_lookup _ _).2.2.2]; rfl

theorem parameterestimate_run_pipeline (solver : SolverFn) (s : JMState)
    (m : Model) (mvl : List String) :
    ∃ opts,
      (parameterestimate_run solver s m mvl).trace =
        [.seedSim, .setStart 0, .setFinal m.elapsed_seconds,
          .solveCalled opts] ∧
      opts.lookup "init_traj" = some (.simres (simulate_fmu m s.ncp)) ∧
      opts.lookup "nominal_traj" = some (.simres (simulate_fmu m s.ncp)) ∧
      opts.lookup "n_e" = some (.nat (simulate_fmu m s.ncp).sampleCount) ∧
      (opts.lookup "external_data").isSome = true := by
  refine ⟨autoOpts
      (simulate_initial { s with measurement_variable_list := mvl } m)
      (simulate_fmu m s.ncp), ?_, ?_, ?_, ?_, ?_⟩
  · rw [parameterestimate_run_trace,
      jm_solve_trace solver
        (simulate_initial { s with measurement_variable_list := mvl } m) m
        (simulate_fmu m s.ncp) rfl]
  · exact (autoOpts_lookup _ _).1
  · exact (autoOpts_lookup _ _).2.1
  · exact (autoOpts_lookup _ _).2.2.1
  · rw [(autoOpts_lookup _ _).2.2.2]; rfl

/-- Claim C7: on every collocation-package solve, whatever the objective
kind, the call first runs the initial-guess simulation, then pushes
start_time = 0 and final_time = the elapsed seconds of the horizon, and
only then invokes the numerical solve; the option dictionary passed to
the solve has the four auto-managed keys overwritten so that init_traj
and nominal_traj are the seed simulation result, n_e is the sample count
of the seed simulation, and external_data holds a freshly computed
value. -/
theorem C7_collocation_solve_pipeline (pt : ProblemKind)
    (solver : SolverFn) (s : JMState) (m : Model) (kw : Kwargs)
    (h : requiredPresent pt kw = true) :
    ∃ opts,
      (problem_optimize .jmodelica pt solver s m kw).trace =
        [.seedSim, .setStart 0, .setFinal m.elapsed_seconds,
          .solveCalled opts] ∧
      opts.lookup "init_traj" = some (.simres (simulate_fmu m s.ncp)) ∧
      opts.lookup "nominal_traj" = some (.simres (simulate_fmu m s.ncp)) ∧
      opts.lookup "n_e" = some (.nat (simulate_fmu m s.ncp).sampleCount) ∧
      (opts.lookup "external_data").isSome = true := by
  cases pt with
  | energyMin =>
    exact energymin_run_pipeline solver s m
  | energyCostMin =>
    cases hpd : kw.price_data with
    | none =>
      simp only [requiredPresent, hpd] at h
      exact Bool.noConfusion h
    | some pd =>
      simp only [requiredPresent, hpd] at h
      cases hpe : pd.lookup "pi_e" with
      | none =>
        rw [hpe] at h
        exact Bool.noConfusion h
      | some v =>
        simp only [problem_optimize, hpd]
        unfold energycostmin_run
        rw [hpe]
        exact energymin_run_pipeline solver
          { s with other_inputs := dset s.other_inputs "pi_e" v } m
  | parameterEstimate =>
    cases hm : kw.measurement_variable_list with
    | none =>
      simp only [requiredPresent, hm] at h
      exact Bool.noConfusion h
    | some l =>
      simp only [problem_optimize, hm]
      exact parameterestimate_run_pipeline solver s m l

/-- Witness for C7: on the energy-minimization kind with concrete state,
model and solver, the hypothesis holds and the pipeline shape follows. -/
theorem C7_collocation_solve_pipeline_witness :
    ∃ opts,
      (problem_optimize .jmodelica .energyMin solverOk sExample mExample
        ⟨none, none⟩).trace =
        [.seedSim, .setStart 0, .setFinal mExample.elapsed_seconds,
          .solveCalled opts] ∧
      opts.lookup "init_traj" =
        some (.simres (simulate_fmu mExample sExample.ncp)) ∧
      opts.lookup "nominal_traj" =
        some (.simres (simulate_fmu mExample sExample.ncp)) ∧
      opts.lookup "n_e" =
        some (.nat (simulate_fmu mExample sExample.ncp).sampleCount) ∧
      (opts.lookup "external_data").isSome = true :=
  C7_collocation_solve_pipeline .energyMin solverOk sExample mExample
    ⟨none, none⟩ rfl

/-- Claim C9: on either package and for every objective kind, the Model
is mutated only after the external solve has returned a complete result
object; whenever the call ends with a raised error (missing signal,
missing seed, or solver failure) the Model is exactly as it was before
the call. -/
theorem C9_no_writeback_on_failure (pk : PackageKind) (pt : ProblemKind)
    (solver : SolverFn) (s : JMState) (m : Model) (kw : Kwargs)
    (h : (problem_optimize pk pt solver s m kw).err.isSome = true) :
    (problem_optimize pk pt solver s m kw).model = m := by
  cases pt with
  | energyMin =>
    exact energymin_run_err_model solver s m h
  | energyCostMin =>
    cases hpd : kw.price_data with
    | none => simp only [problem_optimize, hpd]
    | some pd =>
      cases pk with
      | jmodelica =>
        simp only [problem_optimize, hpd] at h ⊢
        unfold energycostmin_run at h ⊢
        cases hpe : pd.lookup "pi_e" with
        | none => rfl
        | some v =>
          rw [hpe] at h
          exact energymin_run_err_model solver
            { s with other_inputs := dset s.other_inputs "pi_e" v } m h
      | python =>
        simp only [problem_optimize, hpd, python_energycostmin] at h
        exact Bool.noConfusion h
  | parameterEstimate =>
    cases hm : kw.measurement_variable_list with
    | none => simp only [problem_optimize, hm]
    | some l =>
      cases pk with
      | jmodelica =>
        simp only [problem_optimize, hm] at h ⊢
        exact parameterestimate_run_err_model solver s m l h
      | python =>
        simp only [problem_optimize, hm, python_parameterestimate] at h
        exact Bool.noConfusion h

/-- Witness for C9: with a solver that raises, the concrete
energy-minimization call ends in an error and the Model is returned
unchanged. -/
theorem C9_no_writeback_on_failure_witness :
    ((problem_optimize .jmodelica .energyMin solverFail sExample mExample
      ⟨none, none⟩).err.isSome = true) ∧
    (problem_optimize .jmodelica .energyMin solverFail sExample mExample
      ⟨none, none⟩).model = mExample :=
  ⟨rfl, C9_no_writeback_on_failure .jmodelica .energyMin solverFail
    sExample mExample ⟨none, none⟩ rfl⟩

/-- Counterexample to claim C5 as stated: with the measurement-channel
list supplied but empty, the parameter-estimation optimize call raises
no data error and the external numerical solve is attempted. -/
theorem C5_empty_measurement_list_counterexample :
    (problem_optimize .jmodelica .parameterEstimate solverOk sExample
      mExample ⟨none, some []⟩).err = none ∧
    hasSolveEvent (problem_optimize .jmodelica .parameterEstimate solverOk
      sExample mExample ⟨none, some []⟩).trace = true :=
  ⟨rfl, rfl⟩

/-- Claim C5 amended: a missing required extra signal raises a KeyError
before any external solve is attempted: EnergyCostMin when the kwargs
lack price_data (and, on the collocation package, when the supplied
price_data lacks the key pi_e), and ParameterEstimation when the kwargs
lack the measurement-channel list; in each case no solve event occurs and
the Model is untouched. A present-but-empty measurement-channel list is
not rejected. -/
theorem C5_missing_signal_raises_before_solve (pk : PackageKind)
    (solver : SolverFn) (s : JMState) (m : Model) (kw : Kwargs)
    (pd : List (String × CVal)) :
    (kw.price_data = none →
      ((problem_optimize pk .energyCostMin solver s m kw).err.isSome
          = true ∧
        hasSolveEvent
          (problem_optimize pk .energyCostMin solver s m kw).trace
          = false ∧
        (problem_optimize pk .energyCostMin solver s m kw).model = m)) ∧
    (kw.measurement_variable_list = none →
      ((problem_optimize pk .parameterEstimate solver s m kw).err.isSome
          = true ∧
        hasSolveEvent
          (problem_optimize pk .parameterEstimate solver s m kw).trace
          = false ∧
        (problem_optimize pk .parameterEstimate solver s m kw).model
          = m)) ∧
    (pd.lookup "pi_e" = none →
      ((energycostmin_run solver s m pd).err.isSome = true ∧
        hasSolveEvent (energycostmin_run solver s m pd).trace = false ∧
        (energycostmin_run solver s m pd).model = m)) := by
  refine ⟨?_, ?_, ?_⟩
  · intro h
    simp [problem_optimize, h, hasSolveEvent]
  · intro h
    simp [problem_optimize, h, hasSolveEvent]
  · intro h
    unfold energycostmin_run
    rw [h]
    exact ⟨rfl, rfl, rfl⟩

/-- Witness for the amended C5: on concrete inputs the three hypotheses
hold and the corresponding conclusions follow. -/
theorem C5_missing_signal_raises_before_solve_witness :
    ((problem_optimize .jmodelica .energyCostMin solverOk sExample
      mExample ⟨none, none⟩).err.isSome = true) ∧
    ((problem_optimize .jmodelica .parameterEstimate solverOk sExample
      mExample ⟨none, none⟩).err.isSome = true) ∧
    ((energycostmin_run solverOk sExample mExample []).err.isSome
      = true) :=
  ⟨((C5_missing_signal_raises_before_solve .jmodelica solverOk sExample
      mExample ⟨none, none⟩ []).1 rfl).1,
   ((C5_missing_signal_raises_before_solve .jmodelica solverOk sExample
      mExample ⟨none, none⟩ []).2.1 rfl).1,
   ((C5_missing_signal_raises_before_solve .jmodelica solverOk sExample
      mExample ⟨none, none⟩ []).2.2 rfl).1⟩

/-- Trapezoidal integral (numpy.trapz) of the samples y against the time
stamps t. -/
def trapz : List ℚ → List ℚ → ℚ
  | y0 :: y1 :: ys, t0 :: t1 :: ts =>
    (t1 - t0) * (y0 + y1) / 2 + trapz (y1 :: ys) (t1 :: ts)
  | _, _ => 0

/-- Simulation result consumed by the derivative-free cost function: the
time vector and the per-variable sample trajectories. -/
structure SimTraj where
  time : List ℚ
  vals : List (String × List ℚ)
deriving DecidableEq, Repr

/-- Trajectory of one variable in a simulation result (sim_res[key]). -/
def simGet (r : SimTraj) (k : String) : List ℚ :=
  (r.vals.lookup k).getD []

/-- Python.cost_function as written in the source: J is the raw sample
trajectory of the objective variable (a numpy array, not integrated);
for every constraint key outside control_data, a GTE field contributes
trapz(maximum(0, sim - bound)) to error_lower and an LTE field
contributes trapz(maximum(0, bound - sim)) to error_upper; the returned
cost is the numpy broadcast J + mue * total_error, an array with the
scalar added to every entry. Static bounds are rationals here. -/
def cost_function (constraint_data : List (String × List (String × ℚ)))
    (control_names : List String) (objective_variable : String)
    (sim_res : SimTraj) (mue : ℚ) : List ℚ :=
  let t_sim := sim_res.time
  let J := simGet sim_res objective_variable
  let error_lower := constraint_data.flatMap (fun kf =>
    if kf.1 ∈ control_names then []
    else kf.2.flatMap (fun fv =>
      if fv.1 = "GTE" then
        [trapz ((simGet sim_res kf.1).map (fun y => max 0 (y - fv.2)))
          t_sim]
      else []))
  let error_upper := constraint_data.flatMap (fun kf =>
    if kf.1 ∈ control_names then []
    else kf.2.flatMap (fun fv =>
      if fv.1 = "LTE" then
        [trapz ((simGet sim_res kf.1).map (fun y => max 0 (fv.2 - y)))
          t_sim]
      else []))
  let total_error := error_lower.sum + error_upper.sum
  J.map (fun j => j + mue * total_error)

/-- Following the words of the spec (section 4.8): cost(x, mu) equals
the trapezoidal time-integral of the objective-variable trajectory plus
mu times the sum, over every declared LowerBound (GTE) and UpperBound
(LTE) constraint on non-control variables, of the trapezoidal integral
of max(0, violation), where the violation of a lower bound is bound
minus value and of an upper bound is value minus bound. -/
def spec_cost (constraint_data : List (String × List (String × ℚ)))
    (control_names : List String) (objective_variable : String)
    (sim_res : SimTraj) (mue : ℚ) : ℚ :=
  trapz (simGet sim_res objective_variable) sim_res.time +
    mue * (constraint_data.flatMap (fun kf =>
      if kf.1 ∈ control_names then []
      else kf.2.flatMap (fun fv =>
        if fv.1 = "GTE" then
          [trapz ((simGet sim_res kf.1).map (fun y => max 0 (fv.2 - y)))
            sim_res.time]
        else if fv.1 = "LTE" then
          [trapz ((simGet sim_res kf.1).map (fun y => max 0 (y - fv.2)))
            sim_res.time]
        else []))).sum

/-- Simulation result at the failing input of claim C6: two time stamps
0 and 1, objective variable Ptot identically 0, constrained variable
T_db identically 1. -/
def simC6 : SimTraj :=
  { time := [0, 1]
    vals := [("Ptot", [0, 0]), ("T_db", [1, 1])] }

/-- Constraint data at the failing input of claim C6: one lower bound
of 0 on the non-control variable T_db. -/
def cdC6 : List (String × List (String × ℚ)) := [("T_db", [("GTE", 0)])]

set_option maxHeartbeats 1000000 in
/-- Claim C6 (code behaviour at the failing input): at a fully feasible
point (T_db = 1 everywhere above its lower bound 0) with identically
zero objective and mu = 1, the source cost function returns the array
[1, 1]: it penalizes max(0, value - bound) for a lower bound, the
satisfaction rather than the violation, and adds the raw objective
trajectory instead of its trapezoidal integral; the cost stated by the
spec at the same input is 0. -/
theorem C6_cost_function_diverges_from_spec :
    cost_function cdC6 ["q_flow"] "Ptot" simC6 1 = [1, 1] ∧
    spec_cost cdC6 ["q_flow"] "Ptot" simC6 1 = 0 := by
  constructor
  · simp only [cost_function, simGet, simC6, cdC6, List.lookup,
      List.flatMap_cons, List.flatMap_nil, List.append_nil, List.map_cons,
      List.map_nil, List.sum_cons, List.sum_nil]
    norm_num [trapz]
    simp
  · simp only [spec_cost, simGet, simC6, cdC6, List.lookup,
      List.flatMap_cons, List.flatMap_nil, List.append_nil, List.map_cons,
      List.map_nil, List.sum_cons, List.sum_nil]
    norm_num [trapz]
    simp
